import Mathlib

/-
  Verification development for the mcrouter per-worker proxy engine
  (src/mcrouter/proxy.cpp).  The C++ code is shallowly embedded as
  executable Lean definitions: the per-worker admission state becomes an
  explicit record threaded through the operations, machine counters become
  Nat, fallible C++ paths (exceptions, assertion failures) become
  Option/Except values.  Definition names follow the source where Lean
  allows it.
-/

namespace Mcrouter

/-- Memcached operation codes (the `mc_op_t` values that proxy.cpp
inspects; every other opcode behaves like `other`). -/
inductive McOp where
  | get
  | set
  | delete
  | metaget
  | add
  | stats
  | version
  | get_service_info
  | other
deriving DecidableEq, Repr

/-- Result codes used by proxy.cpp (`mc_res_t`): only `local_error` is
distinguished by the claims; `ok` stands for any non-error result. -/
inductive McRes where
  | ok
  | notfound
  | local_error
  | remote_error
deriving DecidableEq, Repr

/-- The bypass test from `proxy_t::rateLimited` ("always let through
certain requests"): stats, version and get_service_info. -/
def bypassOp (op : McOp) : Bool :=
  (op == McOp.stats) || (op == McOp.version) || (op == McOp.get_service_info)

/-- The slice of `proxy_request_t` that the admission machinery
(dispatchRequest / rateLimited / pump) observes: the operation, the
manual reference count (`_refcount`, 1 on construction) and the
`processing_` flag. -/
structure ProxyReq where
  op : McOp
  refcount : Nat := 1
  processing : Bool := false
deriving DecidableEq, Repr

/-- The slice of `proxy_t` used by admission control: the option
`proxy_max_inflight_requests`, the counter `numRequestsProcessing_`, the
FIFO `waitingRequests_` and the `proxy_reqs_waiting` gauge. -/
structure ProxyState where
  maxInflight : Nat
  numRequestsProcessing : Nat := 0
  waiting : List ProxyReq := []
  statReqsWaiting : Nat := 0
deriving DecidableEq, Repr

/-- Source `proxy_t::rateLimited` (proxy.cpp:606-624), translated guard by
guard: max-inflight disabled, then the bypass set, then the
empty-FIFO/under-limit test. -/
def rateLimited (p : ProxyState) (preq : ProxyReq) : Bool :=
  if p.maxInflight = 0 then
    false
  else if preq.op = McOp.stats ∨ preq.op = McOp.version ∨
          preq.op = McOp.get_service_info then
    false
  else if p.waiting = [] ∧ p.numRequestsProcessing < p.maxInflight then
    false
  else
    true

/-- The state effect of `proxy_t::processRequest` (proxy.cpp:520-524) on
the admission slice: assert the request is not yet processing, mark it
processing and bump `numRequestsProcessing_` (stat counters and the
route-handle dispatch do not touch the admission state). -/
def processRequestMark (preq : ProxyReq) : ProxyReq :=
  { preq with processing := true }

/-- Source `proxy_t::dispatchRequest` (proxy.cpp:596-604): if rate limited,
incref the request, append it to the waiting FIFO tail and bump the
waiting stat; otherwise process it immediately. -/
def dispatchRequest (p : ProxyState) (preq : ProxyReq) : ProxyState :=
  if rateLimited p preq then
    { p with
      waiting := p.waiting ++ [{ preq with refcount := preq.refcount + 1 }],
      statReqsWaiting := p.statReqsWaiting + 1 }
  else
    { p with numRequestsProcessing := p.numRequestsProcessing + 1 }

/-- Result of a `pump` run: the final admission counters plus the FIFO
remainder, and the sequence of requests it processed, in order. -/
structure PumpResult where
  numRequestsProcessing : Nat
  statReqsWaiting : Nat
  waiting : List ProxyReq
  processedSeq : List ProxyReq
deriving DecidableEq, Repr

/-- One pump iteration's effect on the detached head: `processRequest`
marks it processing, then `proxy_request_decref` drops the reference
taken at queuing time. -/
def pumpProcessOne (preq : ProxyReq) : ProxyReq :=
  { preq with processing := true, refcount := preq.refcount - 1 }

/-- The loop of `proxy_t::pump` (proxy.cpp:626-635): while
`numRequestsProcessing_ < maxInflight` and the FIFO is non-empty, detach
the head, decrement the waiting stat, processRequest (which increments
`numRequestsProcessing_`) and decref. -/
def pumpLoop (maxInflight : Nat) (n stat : Nat) : List ProxyReq → PumpResult
  | [] => ⟨n, stat, [], []⟩
  | preq :: rest =>
    if n < maxInflight then
      let r := pumpLoop maxInflight (n + 1) (stat - 1) rest
      ⟨r.numRequestsProcessing, r.statReqsWaiting, r.waiting,
        pumpProcessOne preq :: r.processedSeq⟩
    else
      ⟨n, stat, preq :: rest, []⟩

/-- Source `proxy_t::pump` on the proxy state, also returning the list of
requests it processed (in processing order). -/
def pump (p : ProxyState) : ProxyState × List ProxyReq :=
  let r := pumpLoop p.maxInflight p.numRequestsProcessing p.statReqsWaiting p.waiting
  ({ p with
      numRequestsProcessing := r.numRequestsProcessing,
      statReqsWaiting := r.statReqsWaiting,
      waiting := r.waiting },
   r.processedSeq)

/-- The admission effect of `proxy_request_t::~proxy_request_t`
(proxy.cpp:375-386) for a request with `processing_` set: decrement
`numRequestsProcessing_` and run `pump()`. -/
def destroyProcessing (p : ProxyState) : ProxyState :=
  (pump { p with numRequestsProcessing := p.numRequestsProcessing - 1 }).1

/-- Events of the admission system: a `dispatchRequest` of a fresh
request carrying a given op, or the destruction of one currently
processing request. -/
inductive Event where
  | dispatch (op : McOp)
  | complete
deriving DecidableEq, Repr

/-- An event is admission-clean when it is not a dispatch of a bypass
operation (stats / version / get_service_info). -/
def eventOk : Event → Bool
  | Event.dispatch op => !(bypassOp op)
  | Event.complete => true

/-- Interpret one event on the admission state. -/
def stepEvent (p : ProxyState) : Event → ProxyState
  | Event.dispatch op => dispatchRequest p { op := op }
  | Event.complete => destroyProcessing p

/-- Run a sequence of admission events. -/
def execEvents (p : ProxyState) (es : List Event) : ProxyState :=
  es.foldl stepEvent p

/- ------------------------------------------------------------------ -/
/- Helper lemmas about the admission machinery.                        -/
/- ------------------------------------------------------------------ -/

/-- Closed form of the pump loop: it processes exactly the first
`min (maxInflight - n) (length of the FIFO)` waiting requests, in FIFO
order, raising the processing counter and lowering the waiting stat by
that amount. -/
lemma pumpLoop_spec (maxInflight : Nat) :
    ∀ (w : List ProxyReq) (n stat : Nat),
      pumpLoop maxInflight n stat w =
        ⟨n + min (maxInflight - n) w.length,
         stat - min (maxInflight - n) w.length,
         w.drop (min (maxInflight - n) w.length),
         (w.take (min (maxInflight - n) w.length)).map pumpProcessOne⟩ := by
  intro w
  induction w with
  | nil =>
    intro n stat
    simp [pumpLoop]
  | cons preq rest ih =>
    intro n stat
    by_cases h : n < maxInflight
    · have hk : min (maxInflight - n) (preq :: rest).length =
          min (maxInflight - (n + 1)) rest.length + 1 := by
        simp only [List.length_cons]
        omega
      simp only [pumpLoop, if_pos h, ih]
      rw [hk]
      simp only [List.drop_succ_cons, List.take_succ_cons, List.map_cons,
        PumpResult.mk.injEq]
      refine ⟨by omega, by omega, trivial, trivial⟩
    · have hk : min (maxInflight - n) (rest.length + 1) = 0 := by
        omega
      simp [pumpLoop, if_neg h, hk]

/-- pump never pushes the processing counter past `maxInflight` when it
starts at or below it. -/
lemma pumpLoop_le (maxInflight n stat : Nat) (w : List ProxyReq)
    (h : n ≤ maxInflight) :
    (pumpLoop maxInflight n stat w).numRequestsProcessing ≤ maxInflight := by
  rw [pumpLoop_spec]
  simp only
  omega

/-- Every admission step leaves `maxInflight` (an immutable option)
unchanged. -/
lemma stepEvent_maxInflight (p : ProxyState) (e : Event) :
    (stepEvent p e).maxInflight = p.maxInflight := by
  cases e with
  | dispatch op =>
    simp only [stepEvent, dispatchRequest]
    by_cases h : rateLimited p { op := op } <;> simp [h]
  | complete =>
    simp [stepEvent, destroyProcessing, pump]

/-- A dispatch of a non-bypass request keeps the processing counter at or
below a positive `maxInflight`. -/
lemma dispatch_preserves_le (p : ProxyState) (preq : ProxyReq)
    (hM : 0 < p.maxInflight) (hop : bypassOp preq.op = false)
    (h : p.numRequestsProcessing ≤ p.maxInflight) :
    (dispatchRequest p preq).numRequestsProcessing ≤ p.maxInflight := by
  unfold dispatchRequest
  by_cases hr : rateLimited p preq
  · simp [hr, h]
  · simp only [hr, if_neg, Bool.false_eq_true, if_false]
    unfold rateLimited at hr
    simp only [bypassOp, Bool.or_eq_false_iff, beq_eq_false_iff_ne, ne_eq] at hop
    split_ifs at hr with h1 h2 h3
    · omega
    · rcases h2 with h2 | h2 | h2 <;> simp [h2] at hop
    · exact h3.2
    · simp at hr

/-- Completion (destructor + pump) keeps the processing counter at or
below `maxInflight`. -/
lemma destroy_preserves_le (p : ProxyState)
    (h : p.numRequestsProcessing ≤ p.maxInflight) :
    (destroyProcessing p).numRequestsProcessing ≤ p.maxInflight := by
  unfold destroyProcessing pump
  simp only
  exact pumpLoop_le _ _ _ _ (by omega)

/-- Inductive invariant: a clean event sequence keeps
`numRequestsProcessing ≤ maxInflight` (and `maxInflight` itself fixed). -/
lemma execEvents_invariant :
    ∀ (es : List Event) (p : ProxyState),
      es.all eventOk = true →
      0 < p.maxInflight →
      p.numRequestsProcessing ≤ p.maxInflight →
      (execEvents p es).maxInflight = p.maxInflight ∧
      (execEvents p es).numRequestsProcessing ≤ p.maxInflight := by
  intro es
  induction es with
  | nil =>
    intro p _ _ h
    exact ⟨rfl, h⟩
  | cons e rest ih =>
    intro p hall hM h
    simp only [List.all_cons, Bool.and_eq_true] at hall
    have hstepM : (stepEvent p e).maxInflight = p.maxInflight :=
      stepEvent_maxInflight p e
    have hstep : (stepEvent p e).numRequestsProcessing ≤ p.maxInflight := by
      cases e with
      | dispatch op =>
        have hop : bypassOp op = false := by
          have := hall.1
          simp only [eventOk, Bool.not_eq_true'] at this
          exact this
        exact dispatch_preserves_le p { op := op } hM hop h
      | complete =>
        exact destroy_preserves_le p h
    have := ih (stepEvent p e) hall.2 (by omega) (by omega)
    simpa [execEvents, hstepM] using this

/- ------------------------------------------------------------------ -/
/- Claim theorems: admission control.                                  -/
/- ------------------------------------------------------------------ -/

/-- C1 (counterexample): the claim as stated is false.  With
`maxInflight = 1 > 0`, dispatching one `set` and then one `stats`
request leaves `numRequestsProcessing = 2 > 1`: `rateLimited` lets
bypass operations (stats, version, get_service_info) through regardless
of the current in-flight count, so they can push the counter past the
limit. -/
theorem C1_counterexample :
    0 < 1 ∧
    1 < (execEvents { maxInflight := 1 }
          [Event.dispatch McOp.set, Event.dispatch McOp.stats]).numRequestsProcessing := by
  decide

/-- C1 (amended): for every sequence of dispatchRequest admissions and
request completions with `maxInflight = M > 0` in which no dispatched
request carries a bypass operation (stats, version, get_service_info),
the counter `numRequestsProcessing` never exceeds `M`. -/
theorem C1_inflight_bounded (M : Nat) (es : List Event)
    (hM : 0 < M) (hclean : es.all eventOk = true) :
    (execEvents { maxInflight := M } es).numRequestsProcessing ≤ M := by
  exact (execEvents_invariant es { maxInflight := M } hclean hM (by simp)).2

/-- Witness for C1: a concrete clean sequence stays within the bound. -/
theorem C1_witness :
    (execEvents { maxInflight := 1 }
      [Event.dispatch McOp.set, Event.dispatch McOp.get,
       Event.complete, Event.complete]).numRequestsProcessing ≤ 1 :=
  C1_inflight_bounded 1
    [Event.dispatch McOp.set, Event.dispatch McOp.get,
     Event.complete, Event.complete] (by decide) (by decide)

/-- C2: `rateLimited` returns false when `maxInflight = 0`; returns
false for stats / version / get_service_info regardless of load; and
for every other request (under an enabled limit, mirroring the ordered
guards of the source) returns false iff the waiting FIFO is empty and
`numRequestsProcessing < maxInflight`. -/
theorem C2_rateLimited_spec (p : ProxyState) (preq : ProxyReq) :
    (p.maxInflight = 0 → rateLimited p preq = false) ∧
    (preq.op = McOp.stats ∨ preq.op = McOp.version ∨
        preq.op = McOp.get_service_info → rateLimited p preq = false) ∧
    (p.maxInflight ≠ 0 →
      ¬(preq.op = McOp.stats ∨ preq.op = McOp.version ∨
          preq.op = McOp.get_service_info) →
      (rateLimited p preq = false ↔
        p.waiting = [] ∧ p.numRequestsProcessing < p.maxInflight)) := by
  refine ⟨?_, ?_, ?_⟩
  · intro h
    simp [rateLimited, h]
  · intro h
    unfold rateLimited
    split_ifs <;> simp_all
  · intro hM hop
    unfold rateLimited
    rw [if_neg hM, if_neg hop]
    by_cases h3 : p.waiting = [] ∧ p.numRequestsProcessing < p.maxInflight
    · simp [h3]
    · simp [h3]

/-- Witness for C2: a saturated worker rate-limits a `set` request. -/
theorem C2_witness :
    rateLimited { maxInflight := 1, numRequestsProcessing := 1 }
      { op := McOp.set } = false ↔
      ([] : List ProxyReq) = [] ∧ 1 < 1 :=
  (C2_rateLimited_spec { maxInflight := 1, numRequestsProcessing := 1 }
    { op := McOp.set }).2.2 (by decide) (by decide)

/-- C7: the pump loop removes waiting requests from the head, in FIFO
order, exactly while `numRequestsProcessing < maxInflight` and the FIFO
is non-empty: it processes the first `min (maxInflight - n) (length w)`
requests (marking each processing via processRequest and dropping one
reference via decref), decrements the waiting stat once per request,
and leaves the rest queued; when `n ≥ maxInflight` or the FIFO is empty
that count is 0 and it processes nothing.  The final conjunct shows the
decref releases exactly the reference taken at queuing time. -/
theorem C7_pump_fifo (maxInflight n stat : Nat) (w : List ProxyReq) :
    pumpLoop maxInflight n stat w =
      ⟨n + min (maxInflight - n) w.length,
       stat - min (maxInflight - n) w.length,
       w.drop (min (maxInflight - n) w.length),
       (w.take (min (maxInflight - n) w.length)).map pumpProcessOne⟩ ∧
    (∀ r : ProxyReq,
      pumpProcessOne { r with refcount := r.refcount + 1 } =
        { r with processing := true }) := by
  refine ⟨pumpLoop_spec maxInflight w n stat, ?_⟩
  intro r
  simp [pumpProcessOne]

/- ------------------------------------------------------------------ -/
/- Request object, legacy rewrite and the reply path.                  -/
/- ------------------------------------------------------------------ -/

/-- Shorthand: the character list underlying a string literal (keys,
values and error texts are modelled as `List Char`, mirroring the
explicit length-carrying `nstring_t` of the source). -/
def strLit (s : String) : List Char := s.data

/-- An `mc_msg_t` as proxy.cpp uses it: operation, key, result code and
value payload. -/
structure McMsg where
  op : McOp
  key : List Char
  result : McRes := McRes.ok
  value : List Char := []
deriving DecidableEq, Repr

/-- Source `kInternalGetPrefix = "__mcrouter__."` (proxy.cpp:79). -/
def kInternalGetPfx : List Char := strLit "__mcrouter__."

/-- Reply states of `proxy_request_t` (`REPLY_STATE_NO_REPLY`,
`REPLY_STATE_REPLY_DELAYED`, `REPLY_STATE_REPLIED`). -/
inductive ReplyState where
  | no_reply
  | reply_delayed
  | replied
deriving DecidableEq, Repr

/-- The reply-side slice of `proxy_request_t`: the (possibly rewritten)
`orig_req`, the legacy flag, the write-once reply slot, `reply_state`
and the `delay_reply` counter. -/
structure PReq where
  orig_req : McMsg
  legacy_get_service_info : Bool := false
  reply : Option McMsg := none
  reply_state : ReplyState := ReplyState.no_reply
  delay_reply : Nat := 0
deriving DecidableEq, Repr

/-- The `proxy_request_t` constructor (proxy.cpp:336-373) on a valid
request: a `get` whose key starts with `__mcrouter__.` is rewritten to
`get_service_info` with the prefix stripped (`shift_nstring_inplace`)
and the legacy flag is set; any other request is stored unchanged. -/
def mkProxyRequest (req : McMsg) : PReq :=
  if req.op = McOp.get ∧ kInternalGetPfx.isPrefixOf req.key = true then
    { orig_req := { req with
        op := McOp.get_service_info,
        key := req.key.drop kInternalGetPfx.length },
      legacy_get_service_info := true }
  else
    { orig_req := req }

/-- Source `proxy_request_t::continueSendReply` (proxy.cpp:668-684): set
`reply_state = REPLIED` (the enqueue callback and the replied/success/
error stat bumps are external effects with no bearing on the request
state). -/
def continueSendReply (r : PReq) : PReq :=
  { r with reply_state := ReplyState.replied }

/-- The reply-slot store at the top of `sendReply`: save the new reply
and undo the op munging (`legacy_get_service_info ? mc_op_get :
orig_req->op`). -/
def storeReply (r : PReq) (newReply : McMsg) : PReq :=
  { r with reply := some { newReply with
      op := if r.legacy_get_service_info then McOp.get else r.orig_req.op } }

/-- Source `proxy_request_t::sendReply` (proxy.cpp:686-705).  The
`FBI_ASSERT(reply.get() == nullptr)` becomes the `none` result: calling
sendReply with the reply slot already set is an assertion failure. -/
def sendReply (r : PReq) (newReply : McMsg) : Option PReq :=
  if r.reply ≠ none then
    none
  else if (storeReply r newReply).reply_state ≠ ReplyState.no_reply then
    some (storeReply r newReply)
  else if (storeReply r newReply).delay_reply = 0 then
    some (continueSendReply (storeReply r newReply))
  else
    some { storeReply r newReply with reply_state := ReplyState.reply_delayed }

/-- Source `proxy_on_continue_reply_error` (proxy.cpp:707-714) restricted to
the request state: release the delay latch via continueSendReply only
when the request is `REPLY_DELAYED` with `delay_reply == 1`. -/
def proxy_on_continue_reply_error (r : PReq) : PReq :=
  if r.reply_state = ReplyState.reply_delayed ∧ r.delay_reply = 1 then
    continueSendReply r
  else
    r

/-- The reply-path transitions proxy.cpp performs on a request: a
`sendReply` call that passes its assertion, or the async writer's
error callback. -/
inductive ReplyStep : PReq → PReq → Prop where
  | send : ∀ (r r' : PReq) (m : McMsg), sendReply r m = some r' → ReplyStep r r'
  | writerRelease : ∀ r : PReq, ReplyStep r (proxy_on_continue_reply_error r)

/-- The allowed edges of the reply-state machine: stay put, or move
along NO_REPLY → REPLY_DELAYED → REPLIED / NO_REPLY → REPLIED. -/
def replyEdgeOk (a b : ReplyState) : Prop :=
  a = b ∨
  (a = ReplyState.no_reply ∧ b = ReplyState.reply_delayed) ∨
  (a = ReplyState.no_reply ∧ b = ReplyState.replied) ∨
  (a = ReplyState.reply_delayed ∧ b = ReplyState.replied)

/-- Once `sendReply` has stored a reply, its slot holds exactly the new
message with the op field fixed up. -/
lemma sendReply_reply_eq (r : PReq) (m : McMsg) (r' : PReq)
    (h : sendReply r m = some r') :
    r'.reply = some { m with
      op := if r.legacy_get_service_info then McOp.get else r.orig_req.op } := by
  unfold sendReply at h
  split_ifs at h with h1 h2 h3 <;>
    simp only [Option.some.injEq] at h <;>
    subst h <;>
    rfl

/-- Source `create_reply` (proxy.cpp:659-666) with `new_reply` inlined: a fresh
message carrying the given op, result and piggybacked value string. -/
def create_reply (op : McOp) (result : McRes) (str : List Char) : McMsg :=
  { op := op, key := [], result := result, value := str }

/-- The fiber-context lambda of `routeHandlesProcessRequest`
(proxy.cpp:477-501): run the route-handle dispatch on (a clone of) the
stored request; on success stamp the reply with `orig_req->op`
(`releasedMsg`); on exception build the synthetic
`"error routing <key>: <what>"` local-error reply.  The route-handle
tree itself is external, so the dispatch outcome is a parameter:
`Except` models a C++ call that either returns or throws. -/
def routeHandlesFiberTask
    (dispatchMcMsg : McMsg → Except (List Char) McMsg) (preq : PReq) : McMsg :=
  match dispatchMcMsg preq.orig_req with
  | Except.ok reply => { reply with op := preq.orig_req.op }
  | Except.error what =>
      create_reply preq.orig_req.op McRes.local_error
        (strLit "error routing " ++ preq.orig_req.key ++ strLit ": " ++ what)

/- ------------------------------------------------------------------ -/
/- Claim theorems: reply path, legacy rewrite, routing errors.         -/
/- ------------------------------------------------------------------ -/

/-- C3: the reply slot is set at most once (sendReply's assertion
requires it empty, and no reply-path step overwrites a set slot);
`reply_state` only ever stays put or moves along
NO_REPLY → REPLY_DELAYED → REPLIED or NO_REPLY → REPLIED; and in
sendReply, when the state is still NO_REPLY, `delay_reply = 0` goes
immediately to REPLIED via continueSendReply while `delay_reply > 0`
parks the request in REPLY_DELAYED. -/
theorem C3_reply_state_machine :
    (∀ r r' : PReq, ReplyStep r r' →
      replyEdgeOk r.reply_state r'.reply_state ∧
      ∀ m : McMsg, r.reply = some m → r'.reply = some m) ∧
    (∀ (r : PReq) (m : McMsg) (r' : PReq),
      sendReply r m = some r' → r.reply = none) ∧
    (∀ (r : PReq) (m : McMsg) (r' : PReq),
      sendReply r m = some r' → r.reply_state = ReplyState.no_reply →
      (r.delay_reply = 0 →
        r' = continueSendReply (storeReply r m) ∧
        r'.reply_state = ReplyState.replied) ∧
      (0 < r.delay_reply → r'.reply_state = ReplyState.reply_delayed)) := by
  refine ⟨?_, ?_, ?_⟩
  · intro r r' hstep
    cases hstep with
    | send r' m h =>
      unfold sendReply at h
      split_ifs at h with h1 h2 h3 <;>
        simp only [Option.some.injEq] at h <;> subst h
      · constructor
        · left
          rfl
        · intro m' hm'
          simp only [ne_eq, Decidable.not_not] at h1
          rw [h1] at hm'
          exact absurd hm' (by simp)
      · constructor
        · right; right; left
          refine ⟨?_, rfl⟩
          simpa [storeReply] using h2
        · intro m' hm'
          simp only [ne_eq, Decidable.not_not] at h1
          rw [h1] at hm'
          exact absurd hm' (by simp)
      · constructor
        · right; left
          refine ⟨?_, rfl⟩
          simpa [storeReply] using h2
        · intro m' hm'
          simp only [ne_eq, Decidable.not_not] at h1
          rw [h1] at hm'
          exact absurd hm' (by simp)
    | writerRelease =>
      unfold proxy_on_continue_reply_error
      by_cases hc : r.reply_state = ReplyState.reply_delayed ∧ r.delay_reply = 1
      · rw [if_pos hc]
        exact ⟨Or.inr (Or.inr (Or.inr ⟨hc.1, rfl⟩)), fun m hm => hm⟩
      · rw [if_neg hc]
        exact ⟨Or.inl rfl, fun m hm => hm⟩
  · intro r m r' h
    by_cases h1 : r.reply = none
    · exact h1
    · unfold sendReply at h
      rw [if_pos (by simpa using h1)] at h
      exact absurd h (by simp)
  · intro r m r' h hstate
    have hst : (storeReply r m).reply_state = r.reply_state := rfl
    have hdl : (storeReply r m).delay_reply = r.delay_reply := rfl
    unfold sendReply at h
    split_ifs at h with h1 h2 h3 <;>
      simp only [Option.some.injEq] at h <;> subst h
    · rw [hst, hstate] at h2
      exact absurd rfl h2
    · refine ⟨fun _ => ⟨rfl, rfl⟩, fun hpos => ?_⟩
      rw [hdl] at h3
      exact absurd h3 (by omega)
    · refine ⟨fun hz => ?_, fun _ => rfl⟩
      rw [hdl] at h3
      exact absurd hz h3

/-- Witness for C3: a fresh undelayed request replied once moves
NO_REPLY → REPLIED. -/
theorem C3_witness :
    replyEdgeOk
      (mkProxyRequest { op := McOp.get, key := strLit "k" }).reply_state
      (continueSendReply
        (storeReply (mkProxyRequest { op := McOp.get, key := strLit "k" })
          { op := McOp.get, key := strLit "k" })).reply_state :=
  (C3_reply_state_machine.1
    (mkProxyRequest { op := McOp.get, key := strLit "k" })
    (continueSendReply
      (storeReply (mkProxyRequest { op := McOp.get, key := strLit "k" })
        { op := McOp.get, key := strLit "k" }))
    (ReplyStep.send _ _ { op := McOp.get, key := strLit "k" } (by decide))).1

/-- C4: a request constructed with op `get` and a key starting with
`__mcrouter__.` is stored with op `get_service_info` and the prefix
stripped off the key, and any reply it sends carries op `get`; every
other request is stored unchanged and its replies carry the original
op. -/
theorem C4_legacy_rewrite (req m : McMsg) :
    (req.op = McOp.get → kInternalGetPfx.isPrefixOf req.key = true →
      (mkProxyRequest req).orig_req.op = McOp.get_service_info ∧
      (∀ rest : List Char, req.key = kInternalGetPfx ++ rest →
        (mkProxyRequest req).orig_req.key = rest) ∧
      (∀ r' : PReq, sendReply (mkProxyRequest req) m = some r' →
        ∃ rep : McMsg, r'.reply = some rep ∧ rep.op = McOp.get)) ∧
    (¬(req.op = McOp.get ∧ kInternalGetPfx.isPrefixOf req.key = true) →
      (mkProxyRequest req).orig_req = req ∧
      (∀ r' : PReq, sendReply (mkProxyRequest req) m = some r' →
        ∃ rep : McMsg, r'.reply = some rep ∧ rep.op = req.op)) := by
  constructor
  · intro hop hpfx
    have hcond : req.op = McOp.get ∧ kInternalGetPfx.isPrefixOf req.key = true :=
      ⟨hop, hpfx⟩
    refine ⟨?_, ?_, ?_⟩
    · unfold mkProxyRequest
      rw [if_pos hcond]
    · intro rest hkey
      unfold mkProxyRequest
      rw [if_pos hcond]
      show req.key.drop kInternalGetPfx.length = rest
      rw [hkey]
      exact List.drop_left kInternalGetPfx rest
    · intro r' h
      refine ⟨_, sendReply_reply_eq _ m r' h, ?_⟩
      show (if (mkProxyRequest req).legacy_get_service_info = true then McOp.get
            else (mkProxyRequest req).orig_req.op) = McOp.get
      unfold mkProxyRequest
      rw [if_pos hcond]
      rfl
  · intro hcond
    refine ⟨?_, ?_⟩
    · unfold mkProxyRequest
      rw [if_neg hcond]
    · intro r' h
      refine ⟨_, sendReply_reply_eq _ m r' h, ?_⟩
      show (if (mkProxyRequest req).legacy_get_service_info = true then McOp.get
            else (mkProxyRequest req).orig_req.op) = req.op
      unfold mkProxyRequest
      rw [if_neg hcond]
      rfl

/-- Witness for C4: the request of seed scenario S2,
`(get, "__mcrouter__.version")`, routes as
`(get_service_info, "version")`. -/
theorem C4_witness :
    (mkProxyRequest
        { op := McOp.get, key := strLit "__mcrouter__.version" }).orig_req.op =
      McOp.get_service_info ∧
    (mkProxyRequest
        { op := McOp.get, key := strLit "__mcrouter__.version" }).orig_req.key =
      strLit "version" := by
  have h := (C4_legacy_rewrite
    { op := McOp.get, key := strLit "__mcrouter__.version" }
    { op := McOp.get, key := [] }).1 rfl (by decide)
  exact ⟨h.1, h.2.1 (strLit "version") (by decide)⟩

/-- C5: when the route-handle dispatch throws, the exception is absorbed
by the fiber task (which is a total function into replies): the request
gets a synthetic reply with result `local_error` and value exactly
`"error routing <key>: <what>"`. -/
theorem C5_route_exception
    (dispatchMcMsg : McMsg → Except (List Char) McMsg) (preq : PReq)
    (what : List Char)
    (h : dispatchMcMsg preq.orig_req = Except.error what) :
    routeHandlesFiberTask dispatchMcMsg preq =
      create_reply preq.orig_req.op McRes.local_error
        (strLit "error routing " ++ preq.orig_req.key ++ strLit ": " ++ what) ∧
    (routeHandlesFiberTask dispatchMcMsg preq).result = McRes.local_error ∧
    (routeHandlesFiberTask dispatchMcMsg preq).value =
      strLit "error routing " ++ preq.orig_req.key ++ strLit ": " ++ what := by
  unfold routeHandlesFiberTask
  rw [h]
  exact ⟨rfl, rfl, rfl⟩

/-- Witness for C5: seed scenario S5, key `"k"`, exception text
`"upstream down"`. -/
theorem C5_witness :
    (routeHandlesFiberTask (fun _ => Except.error (strLit "upstream down"))
        (mkProxyRequest { op := McOp.get, key := strLit "k" })).result =
      McRes.local_error ∧
    (routeHandlesFiberTask (fun _ => Except.error (strLit "upstream down"))
        (mkProxyRequest { op := McOp.get, key := strLit "k" })).value =
      strLit "error routing k: upstream down" := by
  have h := C5_route_exception
    (fun _ => Except.error (strLit "upstream down"))
    (mkProxyRequest { op := McOp.get, key := strLit "k" })
    (strLit "upstream down") rfl
  exact ⟨h.2.1, h.2.2.trans (by decide)⟩

/- ------------------------------------------------------------------ -/
/- Reconfiguration driver (router_configure).                          -/
/- ------------------------------------------------------------------ -/

/-- An immutable config snapshot, opaque to the driver (only its
identity matters to the claims). -/
structure Config where
  id : Nat
deriving DecidableEq, Repr

/-- The per-worker state `router_configure` touches: the default route,
the destination map's "all marked unused" flag (`markAllAsUnused`) and
the current config snapshot. -/
structure Worker where
  default_route : List Char
  destUnusedMarked : Bool := false
  config : Option Config := none
deriving DecidableEq, Repr

/-- The loop body of `router_configure` (proxy.cpp:933-946) run over all
workers inside the try block: for each worker, fail if its default route
is empty, otherwise mark its destination map entries unused and build
its snapshot (`builder.buildConfig`, which may throw).  On failure the
workers are returned as they stand at that point — earlier workers keep
their `markAllAsUnused` effect. -/
def buildAllConfigs (build : Worker → Except String Config) :
    List Worker → Except (List Worker) (List Worker × List Config)
  | [] => Except.ok ([], [])
  | w :: ws =>
    if w.default_route = [] then
      Except.error (w :: ws)
    else
      match build { w with destUnusedMarked := true } with
      | Except.error _ => Except.error ({ w with destUnusedMarked := true } :: ws)
      | Except.ok c =>
        match buildAllConfigs build ws with
        | Except.error ws' =>
            Except.error ({ w with destUnusedMarked := true } :: ws')
        | Except.ok (ws', cs) =>
            Except.ok ({ w with destUnusedMarked := true } :: ws', c :: cs)

/-- Source `proxy_config_swap` (proxy.cpp:881-915) restricted to the worker
state: install the new snapshot (stat updates and the old-config
retirement queue entry are external effects). -/
def proxy_config_swap (w : Worker) (config : Config) : Worker :=
  { w with config := some config }

/-- Source `router_configure(router, input)` (proxy.cpp:917-963).  The
`ProxyConfigBuilder` constructor and the per-worker `buildConfig` calls
may throw; both are parameters (`Except` models the throw).  Returns
1 on success, 0 on failure, paired with the resulting worker states:
on any failure no swap happens; on success every worker's snapshot is
swapped, in worker-index order. -/
def router_configure (builderExc : Except String Unit)
    (build : Worker → Except String Config)
    (workers : List Worker) : Nat × List Worker :=
  match builderExc with
  | Except.error _ => (0, workers)
  | Except.ok _ =>
    match buildAllConfigs build workers with
    | Except.error ws' => (0, ws')
    | Except.ok (ws', cs) =>
        (1, (ws'.zip cs).map fun p => proxy_config_swap p.1 p.2)

/-- On a failed build pass, every worker keeps its old config (only the
destination-map mark may have changed). -/
lemma buildAllConfigs_error_configs (build : Worker → Except String Config) :
    ∀ (ws ws' : List Worker), buildAllConfigs build ws = Except.error ws' →
      ws'.map Worker.config = ws.map Worker.config ∧ ws'.length = ws.length := by
  intro ws
  induction ws with
  | nil =>
    intro ws' h
    simp [buildAllConfigs] at h
  | cons w rest ih =>
    intro ws' h
    unfold buildAllConfigs at h
    by_cases hroute : w.default_route = []
    · rw [if_pos hroute] at h
      simp only [Except.error.injEq] at h
      subst h
      exact ⟨rfl, rfl⟩
    · rw [if_neg hroute] at h
      cases hb : build { w with destUnusedMarked := true } with
      | error e =>
        rw [hb] at h
        simp only [Except.error.injEq] at h
        subst h
        simp
      | ok c =>
        rw [hb] at h
        cases hrec : buildAllConfigs build rest with
        | error ws'' =>
          rw [hrec] at h
          simp only [Except.error.injEq] at h
          subst h
          have := ih ws'' hrec
          simp [this.1, this.2]
        | ok p =>
          rw [hrec] at h
          simp at h

/-- On a successful build pass, the marked workers keep their old
configs and get one fresh config each. -/
lemma buildAllConfigs_ok_shape (build : Worker → Except String Config) :
    ∀ (ws ws' : List Worker) (cs : List Config),
      buildAllConfigs build ws = Except.ok (ws', cs) →
      ws'.length = ws.length ∧ cs.length = ws.length := by
  intro ws
  induction ws with
  | nil =>
    intro ws' cs h
    simp only [buildAllConfigs, Except.ok.injEq, Prod.mk.injEq] at h
    simp [← h.1, ← h.2]
  | cons w rest ih =>
    intro ws' cs h
    unfold buildAllConfigs at h
    by_cases hroute : w.default_route = []
    · rw [if_pos hroute] at h
      simp at h
    · rw [if_neg hroute] at h
      cases hb : build { w with destUnusedMarked := true } with
      | error e =>
        rw [hb] at h
        simp at h
      | ok c =>
        rw [hb] at h
        cases hrec : buildAllConfigs build rest with
        | error ws'' =>
          rw [hrec] at h
          simp at h
        | ok p =>
          rw [hrec] at h
          simp only [Except.ok.injEq, Prod.mk.injEq] at h
          obtain ⟨h1, h2⟩ := h
          have := ih p.1 p.2 (by rw [hrec])
          subst h1
          subst h2
          simp [this.1, this.2]

/-- Mapping the swap over zipped workers/configs installs exactly the
new configs, in order. -/
lemma zip_swap_configs :
    ∀ (ws : List Worker) (cs : List Config), ws.length = cs.length →
      ((ws.zip cs).map fun p => proxy_config_swap p.1 p.2).map Worker.config =
        cs.map some := by
  intro ws
  induction ws with
  | nil =>
    intro cs h
    cases cs with
    | nil => rfl
    | cons c crest => simp at h
  | cons w rest ih =>
    intro cs h
    cases cs with
    | nil => simp at h
    | cons c crest =>
      simp only [List.zip_cons_cons, List.map_cons]
      simp only [List.length_cons, Nat.add_right_cancel_iff] at h
      rw [ih crest h]
      rfl

/- ------------------------------------------------------------------ -/
/- Claim theorems: reconfiguration.                                    -/
/- ------------------------------------------------------------------ -/

/-- C6 (counterexample): the claim's "no worker state is modified" on
failure is false.  With two workers where the second has an empty
default route, configuration fails (returns 0) with no config swapped,
but the first worker's destination map has already been marked
all-unused — its state is modified. -/
theorem C6_counterexample :
    (router_configure (Except.ok ()) (fun _ => Except.ok { id := 0 })
      [{ default_route := strLit "/a/b/" }, { default_route := [] }]).1 = 0 ∧
    (router_configure (Except.ok ()) (fun _ => Except.ok { id := 0 })
      [{ default_route := strLit "/a/b/" }, { default_route := [] }]).2 ≠
      [{ default_route := strLit "/a/b/" }, { default_route := [] }] := by
  decide

/-- C6 (amended): if building any per-worker snapshot throws (or any
worker's default route is empty), `router_configure` returns failure
and no worker's config is swapped — though workers visited before the
failure keep their destination maps marked as all-unused; otherwise it
returns success and swaps every worker's snapshot, in worker-index
order (the i-th surviving worker receives the i-th built config). -/
theorem C6_all_or_nothing (builderExc : Except String Unit)
    (build : Worker → Except String Config) (workers : List Worker) :
    ((router_configure builderExc build workers).1 = 0 →
      ((router_configure builderExc build workers).2).map Worker.config =
        workers.map Worker.config) ∧
    ((router_configure builderExc build workers).1 = 1 →
      ∃ ws' cs, buildAllConfigs build workers = Except.ok (ws', cs) ∧
        cs.length = workers.length ∧
        ((router_configure builderExc build workers).2).map Worker.config =
          cs.map some) := by
  cases builderExc with
  | error e =>
    refine ⟨fun _ => rfl, fun h => ?_⟩
    simp [router_configure] at h
  | ok u =>
    cases hb : buildAllConfigs build workers with
    | error ws' =>
      refine ⟨fun _ => ?_, fun h => ?_⟩
      · simp only [router_configure, hb]
        exact (buildAllConfigs_error_configs build workers ws' hb).1
      · simp [router_configure, hb] at h
    | ok p =>
      obtain ⟨ws', cs⟩ := p
      have hshape := buildAllConfigs_ok_shape build workers ws' cs hb
      refine ⟨fun h => ?_, fun _ => ?_⟩
      · simp [router_configure, hb] at h
      · refine ⟨ws', cs, rfl, hshape.2, ?_⟩
        simp only [router_configure, hb]
        exact zip_swap_configs ws' cs (by omega)

/-- Witness for C6: a successful two-worker configuration swaps both
snapshots in order. -/
theorem C6_witness :
    ∃ ws' cs,
      buildAllConfigs (fun w => Except.ok { id := w.default_route.length })
        [{ default_route := strLit "/a/b/" }, { default_route := strLit "/c/d/" }] =
        Except.ok (ws', cs) ∧
      cs.length = 2 ∧
      ((router_configure (Except.ok ())
          (fun w => Except.ok { id := w.default_route.length })
          [{ default_route := strLit "/a/b/" },
           { default_route := strLit "/c/d/" }]).2).map Worker.config =
        cs.map some := by
  have h := (C6_all_or_nothing (Except.ok ())
    (fun w => Except.ok { id := w.default_route.length })
    [{ default_route := strLit "/a/b/" },
     { default_route := strLit "/c/d/" }]).2 (by decide)
  simpa using h

/- ------------------------------------------------------------------ -/
/- Default-route parsing (proxy_set_default_route).                    -/
/- ------------------------------------------------------------------ -/

/-- The default-route triple of `proxy_t` (`default_route`,
`default_region`, `default_cluster`), empty at construction. -/
structure ProxyRouteCfg where
  default_route : List Char := []
  default_region : List Char := []
  default_cluster : List Char := []
deriving DecidableEq, Repr

/-- Split a character list at every slash (each slash is a separator;
`n` slashes yield `n + 1` pieces). -/
def splitSlash : List Char → List (List Char)
  | [] => [[]]
  | c :: rest =>
    if c = '/' then
      [] :: splitSlash rest
    else
      match splitSlash rest with
      | [] => [[c]]
      | p :: ps => (c :: p) :: ps

/-- Decidable matcher for the route regular expression of
proxy.cpp:85, a leading slash, two non-empty slash-free segments and an
optional trailing slash: the string splits at slashes into exactly
`["", region, cluster]` or `["", region, cluster, ""]` with region and
cluster non-empty. -/
def routeMatch (s : List Char) : Bool :=
  match splitSlash s with
  | [[], a, b] => !a.isEmpty && !b.isEmpty
  | [[], a, b, []] => !a.isEmpty && !b.isEmpty
  | _ => false

/-- Index of the first occurrence of `c`, if any. -/
def findIdxFromGo (c : Char) : List Char → Option Nat
  | [] => none
  | x :: rest =>
    if x = c then some 0
    else (findIdxFromGo c rest).map (· + 1)

/-- Source `std::string::find(c, start)`: the first index `≥ start` holding
`c`, or `none` for `npos`. -/
def findIdxFrom (c : Char) (l : List Char) (start : Nat) : Option Nat :=
  (findIdxFromGo c (l.drop start)).map (start + ·)

/-- The tail of `proxy_set_default_route` on the (possibly
slash-appended) route: locate the region-terminating and
cluster-terminating slashes and take the two substrings between them.
A `none` here corresponds to the source's `FBI_ASSERT(... != npos)`
failing, which cannot happen for a string that passed the regex; it is
modelled as leaving the proxy unchanged. -/
def setRouteFields (p : ProxyRouteCfg) (droute : List Char) : ProxyRouteCfg :=
  (((findIdxFrom '/' droute 1).bind fun regionEnd =>
    (findIdxFrom '/' droute (regionEnd + 1)).map fun clusterEnd =>
      ({ default_route := droute,
         default_region := (droute.drop 1).take (regionEnd - 1),
         default_cluster :=
           (droute.drop (regionEnd + 1)).take (clusterEnd - regionEnd - 1) }
        : ProxyRouteCfg))).getD p

/-- Source `proxy_set_default_route` (proxy.cpp:81-108): empty strings and
strings failing the route regex are rejected (the proxy is left
untouched and only later configuration validation notices); otherwise
the route is stored with a trailing slash appended when missing, and
the region/cluster segments are extracted from it. -/
def proxy_set_default_route (p : ProxyRouteCfg) (str : List Char) :
    ProxyRouteCfg :=
  if str = [] then p
  else if routeMatch str = false then p
  else
    setRouteFields p (if str.getLast? ≠ some '/' then str ++ ['/'] else str)

/-- splitSlash of a slash-free list is that single piece. -/
lemma splitSlash_noslash :
    ∀ l : List Char, (∀ c ∈ l, c ≠ '/') → splitSlash l = [l] := by
  intro l
  induction l with
  | nil => intro _; rfl
  | cons c rest ih =>
    intro h
    have hc : c ≠ '/' := h c (by simp)
    have := ih (fun x hx => h x (by simp [hx]))
    simp only [splitSlash, if_neg hc, this]

/-- splitSlash peels a slash-free piece followed by a slash. -/
lemma splitSlash_append :
    ∀ (xs ys : List Char), (∀ c ∈ xs, c ≠ '/') →
      splitSlash (xs ++ '/' :: ys) = xs :: splitSlash ys := by
  intro xs
  induction xs with
  | nil =>
    intro ys _
    simp [splitSlash]
  | cons x xs ih =>
    intro ys h
    have hx : x ≠ '/' := h x (by simp)
    have hrec := ih ys (fun c hc => h c (by simp [hc]))
    simp only [List.cons_append, splitSlash, if_neg hx, List.append_eq, hrec]

/-- A well-formed route string passes the regex. -/
lemma routeMatch_valid (a b t : List Char)
    (ha : a ≠ []) (hb : b ≠ []) (ha' : ∀ c ∈ a, c ≠ '/')
    (hb' : ∀ c ∈ b, c ≠ '/') (ht : t = [] ∨ t = ['/']) :
    routeMatch ('/' :: (a ++ '/' :: (b ++ t))) = true := by
  unfold routeMatch
  have h1 : splitSlash ('/' :: (a ++ '/' :: (b ++ t))) =
      [] :: a :: splitSlash (b ++ t) := by
    show splitSlash (('/' : Char) :: (a ++ '/' :: (b ++ t))) = _
    rw [show (('/' : Char) :: (a ++ '/' :: (b ++ t))) =
          ([] ++ '/' :: (a ++ '/' :: (b ++ t))) from rfl]
    rw [splitSlash_append [] (a ++ '/' :: (b ++ t)) (by simp)]
    rw [splitSlash_append a (b ++ t) ha']
  rcases ht with ht | ht
  · subst ht
    rw [h1]
    rw [List.append_nil, splitSlash_noslash b hb']
    simp [List.isEmpty_iff, ha, hb]
  · subst ht
    rw [h1]
    rw [show b ++ ['/'] = b ++ '/' :: [] from rfl,
        splitSlash_append b [] hb']
    simp only [splitSlash]
    simp [List.isEmpty_iff, ha, hb]

/-- findIdxFromGo finds the slash right after a slash-free piece. -/
lemma findIdxFromGo_append :
    ∀ (xs ys : List Char), (∀ c ∈ xs, c ≠ '/') →
      findIdxFromGo '/' (xs ++ '/' :: ys) = some xs.length := by
  intro xs
  induction xs with
  | nil =>
    intro ys _
    simp [findIdxFromGo]
  | cons x xs ih =>
    intro ys h
    have hx : x ≠ '/' := h x (by simp)
    have hrec := ih ys (fun c hc => h c (by simp [hc]))
    simp only [List.cons_append, findIdxFromGo, if_neg hx, List.append_eq,
      hrec, Option.map_some']
    simp

/-- Reduce setRouteFields once both finds are known. -/
lemma setRouteFields_eq (p : ProxyRouteCfg) (droute : List Char)
    (r c : Nat) (h1 : findIdxFrom '/' droute 1 = some r)
    (h2 : findIdxFrom '/' droute (r + 1) = some c) :
    setRouteFields p droute =
      { default_route := droute,
        default_region := (droute.drop 1).take (r - 1),
        default_cluster := (droute.drop (r + 1)).take (c - r - 1) } := by
  unfold setRouteFields
  rw [h1]
  simp only [Option.some_bind]
  rw [h2]
  simp only [Option.map_some']
  rfl

/-- The first slash of a normalized route sits right after the region. -/
lemma findIdxFrom_region (a rest : List Char) (ha' : ∀ c ∈ a, c ≠ '/') :
    findIdxFrom '/' ('/' :: (a ++ '/' :: rest)) 1 = some (1 + a.length) := by
  unfold findIdxFrom
  simp only [List.drop_succ_cons, List.drop_zero]
  rw [findIdxFromGo_append a rest ha']
  rfl

/-- The second slash of a normalized route sits right after the
cluster. -/
lemma findIdxFrom_cluster (a b ys : List Char) (hb' : ∀ c ∈ b, c ≠ '/') :
    findIdxFrom '/' ('/' :: (a ++ '/' :: (b ++ '/' :: ys))) (a.length + 2) =
      some (a.length + 2 + b.length) := by
  unfold findIdxFrom
  have hshape : ('/' : Char) :: (a ++ '/' :: (b ++ '/' :: ys)) =
      (('/' :: a ++ ['/']) ++ (b ++ '/' :: ys)) := by
    simp
  have hlen : (('/' : Char) :: a ++ ['/']).length = a.length + 2 := by
    simp
  rw [hshape, ← hlen, List.drop_left, findIdxFromGo_append b ys hb']
  rfl

/-- Normalization of the trailing slash: both accepted route shapes end
up as `/region/cluster/`. -/
lemma droute_normalized (a b t : List Char) (hb : b ≠ [])
    (hb' : ∀ c ∈ b, c ≠ '/') (ht : t = [] ∨ t = ['/']) :
    (if ('/' :: (a ++ '/' :: (b ++ t))).getLast? ≠ some '/'
      then ('/' :: (a ++ '/' :: (b ++ t))) ++ ['/']
      else ('/' :: (a ++ '/' :: (b ++ t)))) =
      '/' :: (a ++ '/' :: (b ++ ['/'])) := by
  rcases ht with ht | ht
  · subst ht
    have hlast : (('/' : Char) :: (a ++ '/' :: (b ++ []))).getLast? =
        b.getLast? := by
      rw [List.append_nil,
        show ('/' : Char) :: (a ++ '/' :: b) = ('/' :: a ++ ['/']) ++ b by simp]
      exact List.getLast?_append_of_ne_nil _ hb
    have hbl : b.getLast? ≠ some '/' := by
      rw [List.getLast?_eq_getLast_of_ne_nil hb]
      intro hcontra
      simp only [Option.some.injEq] at hcontra
      exact hb' _ (List.getLast_mem hb) hcontra
    rw [if_pos (by rw [hlast]; exact hbl)]
    simp
  · subst ht
    have hlast : (('/' : Char) :: (a ++ '/' :: (b ++ ['/']))).getLast? =
        some '/' := by
      rw [show ('/' : Char) :: (a ++ '/' :: (b ++ ['/'])) =
            ('/' :: (a ++ '/' :: b)) ++ ['/'] by simp]
      rw [List.getLast?_append_of_ne_nil _ (by simp)]
      rfl
    rw [if_neg (by rw [hlast]; simp)]

/- ------------------------------------------------------------------ -/
/- Claim theorems: default-route parsing.                              -/
/- ------------------------------------------------------------------ -/

/-- C8: for every string of the shape `/region/cluster` or
`/region/cluster/` (non-empty slash-free segments — exactly the
language of `^/[^\x2f]+/[^\x2f]+/?$`), `proxy_set_default_route` stores
the route with a trailing slash appended when absent, the first segment
as `default_region` and the second as `default_cluster`; and every
other string leaves an unconfigured proxy without a default route, so
configuration fails on it. -/
theorem C8_default_route (p : ProxyRouteCfg) (a b t : List Char)
    (ha : a ≠ []) (hb : b ≠ []) (ha' : ∀ c ∈ a, c ≠ '/')
    (hb' : ∀ c ∈ b, c ≠ '/') (ht : t = [] ∨ t = ['/']) :
    proxy_set_default_route p ('/' :: (a ++ '/' :: (b ++ t))) =
      { default_route := '/' :: (a ++ '/' :: (b ++ ['/'])),
        default_region := a,
        default_cluster := b } ∧
    (∀ s : List Char, routeMatch s = false →
      proxy_set_default_route {} s = ({} : ProxyRouteCfg) ∧
      ∀ build : Worker → Except String Config,
        (router_configure (Except.ok ()) build
          [{ default_route :=
              (proxy_set_default_route {} s).default_route }]).1 = 0) := by
  constructor
  · unfold proxy_set_default_route
    rw [if_neg (by simp), if_neg (by
      rw [routeMatch_valid a b t ha hb ha' hb' ht]; simp)]
    rw [droute_normalized a b t hb hb' ht]
    have h1 : findIdxFrom '/' ('/' :: (a ++ '/' :: (b ++ ['/']))) 1 =
        some (1 + a.length) :=
      findIdxFrom_region a (b ++ ['/']) ha'
    have h2 : findIdxFrom '/' ('/' :: (a ++ '/' :: (b ++ ['/'])))
        (1 + a.length + 1) = some (a.length + 2 + b.length) := by
      have := findIdxFrom_cluster a b [] hb'
      rw [show (1 : Nat) + a.length + 1 = a.length + 2 by omega]
      simpa using this
    rw [setRouteFields_eq p _ _ _ h1 h2]
    have hregion : (('/' :: (a ++ '/' :: (b ++ ['/']))).drop 1).take
        (1 + a.length - 1) = a := by
      rw [show (1 : Nat) + a.length - 1 = a.length by omega]
      simp only [List.drop_succ_cons, List.drop_zero]
      exact List.take_left a ('/' :: (b ++ ['/']))
    have hcluster : (('/' :: (a ++ '/' :: (b ++ ['/']))).drop
        (1 + a.length + 1)).take
          (a.length + 2 + b.length - (1 + a.length) - 1) = b := by
      rw [show (1 : Nat) + a.length + 1 = a.length + 2 by omega,
        show a.length + 2 + b.length - (1 + a.length) - 1 = b.length by omega]
      have hdr : (('/' : Char) :: (a ++ '/' :: (b ++ ['/']))).drop
          (a.length + 2) = b ++ ['/'] := by
        rw [show ('/' : Char) :: (a ++ '/' :: (b ++ ['/'])) =
              ('/' :: a ++ ['/']) ++ (b ++ ['/']) by simp]
        rw [show a.length + 2 = (('/' : Char) :: a ++ ['/']).length by simp]
        exact List.drop_left _ _
      rw [hdr]
      exact List.take_left b ['/']
    rw [hregion, hcluster]
  · intro s hmiss
    have hset : proxy_set_default_route {} s = ({} : ProxyRouteCfg) := by
      unfold proxy_set_default_route
      by_cases hnil : s = []
      · rw [if_pos hnil]
      · rw [if_neg hnil, if_pos hmiss]
    refine ⟨hset, fun build => ?_⟩
    rw [hset]
    rfl

/-- Witness for C8: seed scenario S1, `/prn/cluster01/` parses into
region `prn` and cluster `cluster01`. -/
theorem C8_witness :
    proxy_set_default_route {}
        ('/' :: (strLit "prn" ++ '/' :: (strLit "cluster01" ++ ['/']))) =
      { default_route :=
          '/' :: (strLit "prn" ++ '/' :: (strLit "cluster01" ++ ['/'])),
        default_region := strLit "prn",
        default_cluster := strLit "cluster01" } :=
  (C8_default_route {} (strLit "prn") (strLit "cluster01") ['/']
    (by decide) (by decide) (by decide) (by decide) (Or.inr rfl)).1

/-- C10: an empty or non-matching route string leaves the whole
default-route triple untouched (no partial assignment) and the call
returns normally; the failure surfaces only through later configuration
validation. -/
theorem C10_invalid_route_unchanged (p : ProxyRouteCfg) (s : List Char)
    (h : s = [] ∨ routeMatch s = false) :
    proxy_set_default_route p s = p := by
  unfold proxy_set_default_route
  rcases h with h | h
  · rw [if_pos h]
  · by_cases hnil : s = []
    · rw [if_pos hnil]
    · rw [if_neg hnil, if_pos h]

/-- Witness for C10: seed scenario S1's rejected input
`prn/cluster01` (no leading slash) changes nothing on a configured
proxy. -/
theorem C10_witness :
    proxy_set_default_route
        { default_route := strLit "/x/y/", default_region := strLit "x",
          default_cluster := strLit "y" }
        (strLit "prn/cluster01") =
      { default_route := strLit "/x/y/", default_region := strLit "x",
        default_cluster := strLit "y" } :=
  C10_invalid_route_unchanged _ _ (Or.inr (by decide))

/- ------------------------------------------------------------------ -/
/- Shadowing-policy JSON validation.                                   -/
/- ------------------------------------------------------------------ -/

/-- A `folly::dynamic` JSON value as the shadowing-policy constructor
inspects it.  Doubles are modelled as rationals: only ordering
comparisons against 0 and 1 matter here, never floating-point
rounding. -/
inductive JVal where
  | jint (n : Int)
  | jdouble (q : ℚ)
  | jstr (s : String)
  | jbool (b : Bool)
  | jnull
  | jarr (elems : List JVal)
  | jobj (fields : List (String × JVal))

/-- Source `dynamic::isObject`. -/
def JVal.isObject : JVal → Bool
  | JVal.jobj _ => true
  | _ => false

/-- Source `dynamic::isArray`. -/
def JVal.isArray : JVal → Bool
  | JVal.jarr _ => true
  | _ => false

/-- Source `json.count(key)` / `json[key]` combined: the value under a key of
an object, if present. -/
def JVal.lookup : JVal → String → Option JVal
  | JVal.jobj fields, k => (fields.find? fun kv => kv.1 == k).map Prod.snd
  | _, _ => none

/-- The element list of an array value. -/
def JVal.getArr : JVal → List JVal
  | JVal.jarr elems => elems
  | _ => []

/-- Source `folly::convertTo<std::vector<size_t>>`: every element must be an
integer that fits a `size_t` (non-negative); modelled from the spec's
"two non-negative integers" at the granularity the claims need. -/
def convertToSizeT : List JVal → Except String (List Nat)
  | [] => Except.ok []
  | JVal.jint n :: rest =>
    if n < 0 then
      Except.error "size_t conversion: negative value"
    else
      (convertToSizeT rest).map fun ns => n.toNat :: ns
  | _ :: _ => Except.error "size_t conversion: not an integer"

/-- Source `dynamic::isNumber` + `asDouble`: integers and doubles are numbers,
nothing else converts. -/
def asNumber : JVal → Option ℚ
  | JVal.jint n => some (n : ℚ)
  | JVal.jdouble q => some q
  | _ => none

/-- Source `folly::convertTo<std::vector<double>>` on an array. -/
def convertToDouble : List JVal → Except String (List ℚ)
  | [] => Except.ok []
  | v :: rest =>
    match asNumber v with
    | none => Except.error "double conversion: not a number"
    | some q => (convertToDouble rest).map fun qs => q :: qs

/-- Source `checkLogic(cond, msg)` from the source: throw a logic error when
the condition fails. -/
def checkLogic (cond : Prop) [Decidable cond] (msg : String) :
    Except String Unit :=
  if cond then Except.ok () else Except.error msg

/-- Source `proxy_pool_shadowing_policy_t::Data`: the validated bounds and the
runtime-variable names (the shadow pool pointer and type are opaque and
omitted). -/
structure ShadowData where
  start_index : Nat := 0
  end_index : Nat := 0
  start_key_fraction : ℚ := 0
  end_key_fraction : ℚ := 0
  index_range_rv : String := ""
  key_fraction_range_rv : String := ""
deriving DecidableEq, Repr

/-- The body of the `index_range` block run on the present value. -/
def parseIndexRangeVal (d : ShadowData) (v : JVal) : Except String ShadowData :=
  if v.isArray = false then
    Except.error "shadowing_policy: index_range is not array"
  else
    match convertToSizeT v.getArr with
    | Except.error e => Except.error e
    | Except.ok ar =>
      if ar.length = 2 then
        if ar.getD 0 0 ≤ ar.getD 1 0 then
          Except.ok { d with
            start_index := ar.getD 0 0, end_index := ar.getD 1 0 }
        else
          Except.error "shadowing_policy: index_range start > end"
      else
        Except.error "shadowing_policy: index_range size is not 2"

/-- The `index_range` block of the Data constructor
(proxy.cpp:746-755): if present it must be an array convertible to two
size_t values with start ≤ end. -/
def parseIndexRange (j : JVal) (d : ShadowData) : Except String ShadowData :=
  match j.lookup "index_range" with
  | none => Except.ok d
  | some v => parseIndexRangeVal d v

/-- The body of the `key_fraction_range` block run on the present
value. -/
def parseKeyFractionRangeVal (d : ShadowData) (v : JVal) :
    Except String ShadowData :=
  if v.isArray = false then
    Except.error "shadowing_policy: key_fraction_range is not array"
  else
    match convertToDouble v.getArr with
    | Except.error e => Except.error e
    | Except.ok ar =>
      if ar.length = 2 then
        if 0 ≤ ar.getD 0 0 ∧ ar.getD 0 0 ≤ ar.getD 1 0 ∧ ar.getD 1 0 ≤ 1 then
          Except.ok { d with
            start_key_fraction := ar.getD 0 0,
            end_key_fraction := ar.getD 1 0 }
        else
          Except.error "shadowing_policy: invalid key_fraction_range"
      else
        Except.error "shadowing_policy: key_fraction_range size is not 2"

/-- The `key_fraction_range` block (proxy.cpp:756-768): if present it
must be an array of two numbers with 0 ≤ start ≤ end ≤ 1. -/
def parseKeyFractionRange (j : JVal) (d : ShadowData) :
    Except String ShadowData :=
  match j.lookup "key_fraction_range" with
  | none => Except.ok d
  | some v => parseKeyFractionRangeVal d v

/-- The body of the `index_range_rv` block run on the present value. -/
def parseIndexRangeRvVal (d : ShadowData) : JVal → Except String ShadowData
  | JVal.jstr s => Except.ok { d with index_range_rv := s }
  | _ => Except.error "shadowing_policy: index_range_rv is not string"

/-- The `index_range_rv` block (proxy.cpp:769-773). -/
def parseIndexRangeRv (j : JVal) (d : ShadowData) :
    Except String ShadowData :=
  match j.lookup "index_range_rv" with
  | none => Except.ok d
  | some v => parseIndexRangeRvVal d v

/-- The body of the `key_fraction_range_rv` block run on the present
value. -/
def parseKeyFractionRangeRvVal (d : ShadowData) :
    JVal → Except String ShadowData
  | JVal.jstr s => Except.ok { d with key_fraction_range_rv := s }
  | _ => Except.error "shadowing_policy: key_fraction_range_rv is not string"

/-- The `key_fraction_range_rv` block (proxy.cpp:774-779). -/
def parseKeyFractionRangeRv (j : JVal) (d : ShadowData) :
    Except String ShadowData :=
  match j.lookup "key_fraction_range_rv" with
  | none => Except.ok d
  | some v => parseKeyFractionRangeRvVal d v

/-- The Data-from-JSON constructor (proxy.cpp:737-780): check the value
is an object, then validate the four optional fields in source order,
any failure aborting construction. -/
def ShadowData.fromJson (j : JVal) : Except String ShadowData :=
  if j.isObject = false then
    Except.error "shadowing_policy is not object"
  else
    match parseIndexRange j {} with
    | Except.error e => Except.error e
    | Except.ok d1 =>
      match parseKeyFractionRange j d1 with
      | Except.error e => Except.error e
      | Except.ok d2 =>
        match parseIndexRangeRv j d2 with
        | Except.error e => Except.error e
        | Except.ok d3 => parseKeyFractionRangeRv j d3

/-- A successful size_t conversion means every element was a
non-negative integer, recovered exactly. -/
lemma convertToSizeT_ok :
    ∀ (l : List JVal) (ar : List Nat), convertToSizeT l = Except.ok ar →
      l = ar.map (fun n : Nat => JVal.jint (n : Int)) := by
  intro l
  induction l with
  | nil =>
    intro ar h
    simp only [convertToSizeT, Except.ok.injEq] at h
    rw [← h]
    rfl
  | cons v rest ih =>
    intro ar h
    cases v with
    | jint n =>
      unfold convertToSizeT at h
      by_cases hneg : n < 0
      · rw [if_pos hneg] at h
        simp at h
      · rw [if_neg hneg] at h
        cases hrec : convertToSizeT rest with
        | error e =>
          rw [hrec] at h
          simp [Except.map] at h
        | ok ns =>
          rw [hrec] at h
          simp only [Except.map, Except.ok.injEq] at h
          rw [← h]
          simp only [List.map_cons, List.cons.injEq]
          refine ⟨?_, ih ns hrec⟩
          rw [Int.toNat_of_nonneg (by omega)]
    | jdouble q => simp [convertToSizeT] at h
    | jstr s => simp [convertToSizeT] at h
    | jbool b => simp [convertToSizeT] at h
    | jnull => simp [convertToSizeT] at h
    | jarr elems => simp [convertToSizeT] at h
    | jobj fields => simp [convertToSizeT] at h

/-- A successful double conversion pairs every element with its numeric
value. -/
lemma convertToDouble_ok :
    ∀ (l : List JVal) (qs : List ℚ), convertToDouble l = Except.ok qs →
      List.Forall₂ (fun v q => asNumber v = some q) l qs := by
  intro l
  induction l with
  | nil =>
    intro qs h
    simp only [convertToDouble, Except.ok.injEq] at h
    rw [← h]
    exact List.Forall₂.nil
  | cons v rest ih =>
    intro qs h
    unfold convertToDouble at h
    cases hn : asNumber v with
    | none =>
      rw [hn] at h
      simp at h
    | some q =>
      rw [hn] at h
      cases hrec : convertToDouble rest with
      | error e =>
        rw [hrec] at h
        simp [Except.map] at h
      | ok qs' =>
        rw [hrec] at h
        simp only [Except.map, Except.ok.injEq] at h
        rw [← h]
        exact List.Forall₂.cons hn (ih qs' hrec)

/-- An array value is `jarr` of its elements. -/
lemma JVal.isArray_eq (v : JVal) (h : v.isArray = true) :
    v = JVal.jarr v.getArr := by
  cases v <;> simp [JVal.isArray, JVal.getArr] at h ⊢

/-- A present `index_range` that survives parsing was a two-element
array of non-negative integers with start ≤ end, stored in the bound
fields. -/
lemma parseIndexRange_some (j : JVal) (d d' : ShadowData) (v : JVal)
    (hl : j.lookup "index_range" = some v)
    (h : parseIndexRange j d = Except.ok d') :
    ∃ s e : Int, v = JVal.jarr [JVal.jint s, JVal.jint e] ∧
      0 ≤ s ∧ s ≤ e ∧ d'.start_index = s.toNat ∧ d'.end_index = e.toNat := by
  have he : parseIndexRange j d = parseIndexRangeVal d v := by
    unfold parseIndexRange
    rw [hl]
  rw [he] at h
  by_cases harr : v.isArray = false
  · rw [show parseIndexRangeVal d v =
        Except.error "shadowing_policy: index_range is not array" from by
      unfold parseIndexRangeVal
      rw [if_pos harr]] at h
    simp at h
  · cases hc : convertToSizeT v.getArr with
    | error e =>
      rw [show parseIndexRangeVal d v = Except.error e from by
        unfold parseIndexRangeVal
        rw [if_neg harr, hc]] at h
      simp at h
    | ok ar =>
      rw [show parseIndexRangeVal d v =
          (if ar.length = 2 then
            if ar.getD 0 0 ≤ ar.getD 1 0 then
              Except.ok { d with
                start_index := ar.getD 0 0, end_index := ar.getD 1 0 }
            else Except.error "shadowing_policy: index_range start > end"
          else Except.error "shadowing_policy: index_range size is not 2")
          from by
        unfold parseIndexRangeVal
        rw [if_neg harr, hc]] at h
      split_ifs at h with hlen hle
      · simp only [Except.ok.injEq] at h
        obtain ⟨s0, ar1, rfl⟩ : ∃ s0 ar1, ar = s0 :: ar1 := by
          cases ar with
          | nil => simp at hlen
          | cons x xs => exact ⟨x, xs, rfl⟩
        obtain ⟨e0, ar2, rfl⟩ : ∃ e0 ar2, ar1 = e0 :: ar2 := by
          cases ar1 with
          | nil => simp at hlen
          | cons x xs => exact ⟨x, xs, rfl⟩
        have har2 : ar2 = [] := by
          cases ar2 with
          | nil => rfl
          | cons x xs => simp at hlen
        subst har2
        have hv : v = JVal.jarr [JVal.jint (s0 : Int), JVal.jint (e0 : Int)] := by
          rw [JVal.isArray_eq v (by simpa using harr),
            convertToSizeT_ok v.getArr _ hc]
          rfl
        refine ⟨(s0 : Int), (e0 : Int), hv, by omega, ?_, ?_, ?_⟩
        · simp only [List.getD, List.get?, Option.getD_some] at hle
          omega
        · rw [← h]
          simp [List.getD]
        · rw [← h]
          simp [List.getD]

/-- A present `key_fraction_range` that survives parsing was a
two-element array of numbers with 0 ≤ start ≤ end ≤ 1, stored in the
bound fields. -/
lemma parseKeyFractionRange_some (j : JVal) (d d' : ShadowData) (v : JVal)
    (hl : j.lookup "key_fraction_range" = some v)
    (h : parseKeyFractionRange j d = Except.ok d') :
    ∃ x y : JVal, ∃ qs qe : ℚ, v = JVal.jarr [x, y] ∧
      asNumber x = some qs ∧ asNumber y = some qe ∧
      0 ≤ qs ∧ qs ≤ qe ∧ qe ≤ 1 ∧
      d'.start_key_fraction = qs ∧ d'.end_key_fraction = qe := by
  have he : parseKeyFractionRange j d = parseKeyFractionRangeVal d v := by
    unfold parseKeyFractionRange
    rw [hl]
  rw [he] at h
  by_cases harr : v.isArray = false
  · rw [show parseKeyFractionRangeVal d v =
        Except.error "shadowing_policy: key_fraction_range is not array" from by
      unfold parseKeyFractionRangeVal
      rw [if_pos harr]] at h
    simp at h
  · cases hc : convertToDouble v.getArr with
    | error e =>
      rw [show parseKeyFractionRangeVal d v = Except.error e from by
        unfold parseKeyFractionRangeVal
        rw [if_neg harr, hc]] at h
      simp at h
    | ok ar =>
      rw [show parseKeyFractionRangeVal d v =
          (if ar.length = 2 then
            if 0 ≤ ar.getD 0 0 ∧ ar.getD 0 0 ≤ ar.getD 1 0 ∧
                ar.getD 1 0 ≤ 1 then
              Except.ok { d with
                start_key_fraction := ar.getD 0 0,
                end_key_fraction := ar.getD 1 0 }
            else Except.error "shadowing_policy: invalid key_fraction_range"
          else
            Except.error "shadowing_policy: key_fraction_range size is not 2")
          from by
        unfold parseKeyFractionRangeVal
        rw [if_neg harr, hc]] at h
      split_ifs at h with hlen hle
      · simp only [Except.ok.injEq] at h
        obtain ⟨q0, ar1, rfl⟩ : ∃ q0 ar1, ar = q0 :: ar1 := by
          cases ar with
          | nil => simp at hlen
          | cons x xs => exact ⟨x, xs, rfl⟩
        obtain ⟨q1, ar2, rfl⟩ : ∃ q1 ar2, ar1 = q1 :: ar2 := by
          cases ar1 with
          | nil => simp at hlen
          | cons x xs => exact ⟨x, xs, rfl⟩
        have har2 : ar2 = [] := by
          cases ar2 with
          | nil => rfl
          | cons x xs => simp at hlen
        subst har2
        have hf := convertToDouble_ok v.getArr [q0, q1] hc
        rcases List.forall₂_cons_right_iff.mp hf with ⟨x, l1, hxq, hf2, hl1⟩
        rcases List.forall₂_cons_right_iff.mp hf2 with ⟨y, l2, hyq, hf3, hl2⟩
        have hl3 : l2 = [] := List.forall₂_nil_right_iff.mp hf3
        subst hl3
        have hv : v = JVal.jarr [x, y] := by
          rw [JVal.isArray_eq v (by simpa using harr), hl1, hl2]
        simp only [List.getD, List.get?, Option.getD_some] at hle
        refine ⟨x, y, q0, q1, hv, hxq, hyq,
          hle.1, hle.2.1, hle.2.2, ?_, ?_⟩
        · rw [← h]
          simp [List.getD]
        · rw [← h]
          simp [List.getD]

/-- parseKeyFractionRange never touches the index bounds. -/
lemma parseKeyFractionRange_frame (j : JVal) (d d' : ShadowData)
    (h : parseKeyFractionRange j d = Except.ok d') :
    d'.start_index = d.start_index ∧ d'.end_index = d.end_index := by
  cases hl : j.lookup "key_fraction_range" with
  | none =>
    rw [show parseKeyFractionRange j d = Except.ok d from by
      unfold parseKeyFractionRange
      rw [hl]] at h
    simp only [Except.ok.injEq] at h
    rw [← h]
    exact ⟨rfl, rfl⟩
  | some v =>
    rw [show parseKeyFractionRange j d = parseKeyFractionRangeVal d v from by
      unfold parseKeyFractionRange
      rw [hl]] at h
    by_cases harr : v.isArray = false
    · rw [show parseKeyFractionRangeVal d v =
          Except.error "shadowing_policy: key_fraction_range is not array"
          from by
        unfold parseKeyFractionRangeVal
        rw [if_pos harr]] at h
      simp at h
    · cases hc : convertToDouble v.getArr with
      | error e =>
        rw [show parseKeyFractionRangeVal d v = Except.error e from by
          unfold parseKeyFractionRangeVal
          rw [if_neg harr, hc]] at h
        simp at h
      | ok ar =>
        rw [show parseKeyFractionRangeVal d v =
            (if ar.length = 2 then
              if 0 ≤ ar.getD 0 0 ∧ ar.getD 0 0 ≤ ar.getD 1 0 ∧
                  ar.getD 1 0 ≤ 1 then
                Except.ok { d with
                  start_key_fraction := ar.getD 0 0,
                  end_key_fraction := ar.getD 1 0 }
              else Except.error "shadowing_policy: invalid key_fraction_range"
            else
              Except.error
                "shadowing_policy: key_fraction_range size is not 2")
            from by
          unfold parseKeyFractionRangeVal
          rw [if_neg harr, hc]] at h
        split_ifs at h
        · simp only [Except.ok.injEq] at h
          rw [← h]
          exact ⟨rfl, rfl⟩

/-- The runtime-variable blocks never touch the four numeric bounds. -/
lemma parseRv_frame (j : JVal) (d d' : ShadowData)
    (h : parseIndexRangeRv j d = Except.ok d' ∨
      parseKeyFractionRangeRv j d = Except.ok d') :
    d'.start_index = d.start_index ∧ d'.end_index = d.end_index ∧
    d'.start_key_fraction = d.start_key_fraction ∧
    d'.end_key_fraction = d.end_key_fraction := by
  rcases h with h | h
  · cases hl : j.lookup "index_range_rv" with
    | none =>
      rw [show parseIndexRangeRv j d = Except.ok d from by
        unfold parseIndexRangeRv
        rw [hl]] at h
      simp only [Except.ok.injEq] at h
      rw [← h]
      exact ⟨rfl, rfl, rfl, rfl⟩
    | some v =>
      rw [show parseIndexRangeRv j d = parseIndexRangeRvVal d v from by
        unfold parseIndexRangeRv
        rw [hl]] at h
      cases v <;> simp only [parseIndexRangeRvVal, Except.ok.injEq,
        reduceCtorEq] at h
      rw [← h]
      exact ⟨rfl, rfl, rfl, rfl⟩
  · cases hl : j.lookup "key_fraction_range_rv" with
    | none =>
      rw [show parseKeyFractionRangeRv j d = Except.ok d from by
        unfold parseKeyFractionRangeRv
        rw [hl]] at h
      simp only [Except.ok.injEq] at h
      rw [← h]
      exact ⟨rfl, rfl, rfl, rfl⟩
    | some v =>
      rw [show parseKeyFractionRangeRv j d = parseKeyFractionRangeRvVal d v
          from by
        unfold parseKeyFractionRangeRv
        rw [hl]] at h
      cases v <;> simp only [parseKeyFractionRangeRvVal, Except.ok.injEq,
        reduceCtorEq] at h
      rw [← h]
      exact ⟨rfl, rfl, rfl, rfl⟩

/- ------------------------------------------------------------------ -/
/- Claim theorem: shadowing-policy validation.                         -/
/- ------------------------------------------------------------------ -/

/-- C9: constructing shadowing-policy Data from JSON succeeds only if a
present `index_range` is an array of exactly two non-negative integers
with start ≤ end, and a present `key_fraction_range` is an array of
exactly two numbers each in [0,1] with start ≤ end — any violation
raises an error fatal to the policy — and on success the four bound
fields hold exactly the given array elements. -/
theorem C9_shadow_validation (j : JVal) (d : ShadowData)
    (h : ShadowData.fromJson j = Except.ok d) :
    (∀ v, j.lookup "index_range" = some v →
      ∃ s e : Int, v = JVal.jarr [JVal.jint s, JVal.jint e] ∧
        0 ≤ s ∧ s ≤ e ∧ d.start_index = s.toNat ∧ d.end_index = e.toNat) ∧
    (∀ v, j.lookup "key_fraction_range" = some v →
      ∃ x y : JVal, ∃ qs qe : ℚ, v = JVal.jarr [x, y] ∧
        asNumber x = some qs ∧ asNumber y = some qe ∧
        0 ≤ qs ∧ qs ≤ qe ∧ qe ≤ 1 ∧
        d.start_key_fraction = qs ∧ d.end_key_fraction = qe) := by
  unfold ShadowData.fromJson at h
  by_cases hobj : j.isObject = false
  · rw [if_pos hobj] at h
    exact absurd h (by simp)
  · rw [if_neg hobj] at h
    split at h
    · exact absurd h (by simp)
    · rename_i d1 h1
      split at h
      · exact absurd h (by simp)
      · rename_i d2 h2
        split at h
        · exact absurd h (by simp)
        · rename_i d3 h3
          have hf2 := parseKeyFractionRange_frame j d1 d2 h2
          have hf3 := parseRv_frame j d2 d3 (Or.inl h3)
          have hf4 := parseRv_frame j d3 d (Or.inr h)
          constructor
          · intro v hv
            obtain ⟨s, e, hva, hs, hse, hsi, hei⟩ :=
              parseIndexRange_some j {} d1 v hv h1
            refine ⟨s, e, hva, hs, hse, ?_, ?_⟩
            · rw [hf4.1, hf3.1, hf2.1, hsi]
            · rw [hf4.2.1, hf3.2.1, hf2.2, hei]
          · intro v hv
            obtain ⟨x, y, qs, qe, hva, hxq, hyq, h0, hq01, h1q, hsk, hek⟩ :=
              parseKeyFractionRange_some j d1 d2 v hv h2
            refine ⟨x, y, qs, qe, hva, hxq, hyq, h0, hq01, h1q, ?_, ?_⟩
            · rw [hf4.2.2.1, hf3.2.2.1, hsk]
            · rw [hf4.2.2.2, hf3.2.2.2, hek]

/-- Witness for C9: seed scenario S7's range `[3, 7]` validates and
binds `start_index = 3, end_index = 7`. -/
theorem C9_witness :
    ∃ s e : Int,
      JVal.jarr [JVal.jint 3, JVal.jint 7] =
        JVal.jarr [JVal.jint s, JVal.jint e] ∧
      0 ≤ s ∧ s ≤ e ∧
      ({ start_index := 3, end_index := 7 } : ShadowData).start_index =
        s.toNat ∧
      ({ start_index := 3, end_index := 7 } : ShadowData).end_index =
        e.toNat :=
  (C9_shadow_validation
    (JVal.jobj [("index_range", JVal.jarr [JVal.jint 3, JVal.jint 7])])
    { start_index := 3, end_index := 7 } (by rfl)).1
    (JVal.jarr [JVal.jint 3, JVal.jint 7]) rfl

end Mcrouter
